import Mathlib

/-!
Verification development for the maze environment layer of the `sac`
repository (`sac/envs/ant_maze_env.py`).  The definitions below are a
shallow embedding of `AntMazeEnv`: the maze grid, the scene compiler,
the collision/step/reset logic, the range-sensor raycaster and the
observation composer.  Real-valued quantities of the Python code are
embedded as rationals (`ℚ`); the external physics engine (body
positions, engine step results, rendered pixels) enters as explicit
parameters.  Helper functions of `maze_env_utils.py`, which is not part
of the sources at hand, are modelled from the specification where
needed and marked as such in their doc comments.
-/

namespace AntMaze

/-- Modelled from the spec: a movable-block variant is "a tag describing
which combination of slide/spin degrees of freedom a block possesses"
(slide-x, slide-y, slide-z, spin).  Stands in for the `Move` enum of
`maze_env_utils.py`, which is absent from the sources. -/
structure MoveVariant where
  slideX : Bool
  slideY : Bool
  slideZ : Bool
  spin : Bool
deriving DecidableEq, Repr

/-- Modelled from the spec: `Move.SpinXY`, the spin-capable variant that a
robot cell is turned into when `put_spin_near_agent` is set; it can slide
in x and y and spin. -/
def MoveVariant.spinXY : MoveVariant := ⟨true, true, false, true⟩

/-- Modelled from the spec: `maze_env_utils.can_move_x`. -/
def canMoveX (v : MoveVariant) : Bool := v.slideX

/-- Modelled from the spec: `maze_env_utils.can_move_y`. -/
def canMoveY (v : MoveVariant) : Bool := v.slideY

/-- Modelled from the spec: `maze_env_utils.can_move_z` ("falling" blocks). -/
def canMoveZ (v : MoveVariant) : Bool := v.slideZ

/-- Modelled from the spec: `maze_env_utils.can_spin`. -/
def canSpin (v : MoveVariant) : Bool := v.spin

/-- A cell tag of the maze grid: open `0`, wall `1`, chasm `-1`, robot
start `'r'`, or a movable-block variant (`maze_env_utils.Move` value). -/
inductive Cell where
  | free : Cell
  | wall : Cell
  | chasm : Cell
  | robot : Cell
  | move : MoveVariant → Cell
deriving DecidableEq, Repr

/-- Modelled from the spec: `maze_env_utils.can_move` holds exactly on the
movable-block variant tags. -/
def canMove : Cell → Bool
  | Cell.move _ => true
  | _ => false

/-- A maze grid: a 2-D array of cell tags, indexed (row i, column j). -/
def Grid : Type := List (List Cell)

/-- Number of rows, `len(structure)`. -/
def numRows (g : Grid) : ℕ := g.length

/-- Number of columns, `len(structure[0])` (0 for an empty grid). -/
def numCols (g : Grid) : ℕ := (g.headD []).length

/-- `structure[i][j]`, totalised with the open cell as default. -/
def cellAt (g : Grid) (i j : ℕ) : Cell := (g.getD i []).getD j Cell.free

/-- `self.elevated = any(-1 in row for row in structure)`. -/
def elevatedOf (g : Grid) : Bool := g.any fun row => row.contains Cell.chasm

/-- The struct-reinterpretation at the top of the compile loop:
`if struct == 'r' and self._put_spin_near_agent: struct = Move.SpinXY`. -/
def reinterp (putSpinNearAgent : Bool) (c : Cell) : Cell :=
  if c = Cell.robot ∧ putSpinNearAgent then Cell.move MoveVariant.spinXY else c

/-- `AntMazeEnv._find_robot`: scan the grid in row-major order and return
the world coordinates `(j * size_scaling, i * size_scaling)` of the first
robot cell; `none` models the `assert False` raised when the grid has no
robot cell. -/
def findRobot (g : Grid) (scale : ℚ) : Option (ℚ × ℚ) :=
  ((List.range (numRows g)).flatMap fun i =>
    (List.range (numCols g)).filterMap fun j =>
      if cellAt g i j = Cell.robot then
        some ((j : ℚ) * scale, (i : ℚ) * scale)
      else none).head?

/-- `AntMazeEnv._find_all_robots`: the scaled coordinates of every robot
cell, in row-major order. -/
def findAllRobots (g : Grid) (scale : ℚ) : List (ℚ × ℚ) :=
  (List.range (numRows g)).flatMap fun i =>
    (List.range (numCols g)).filterMap fun j =>
      if cellAt g i j = Cell.robot then
        some ((j : ℚ) * scale, (i : ℚ) * scale)
      else none

/-- `AntMazeEnv._is_in_collision`: `(x, y)` lies inside the axis-aligned
box `[center - 0.5*scale, center + 0.5*scale]` of some wall cell, where
the cell center is `(j*scale - torso_x, i*scale - torso_y)`. -/
def isInCollision (g : Grid) (scale torsoX torsoY : ℚ) (pos : ℚ × ℚ) : Bool :=
  (List.range (numRows g)).any fun i =>
    (List.range (numCols g)).any fun j =>
      cellAt g i j = Cell.wall &&
      decide ((j : ℚ) * scale - scale * (1/2) - torsoX ≤ pos.1) &&
      decide (pos.1 ≤ (j : ℚ) * scale + scale * (1/2) - torsoX) &&
      decide ((i : ℚ) * scale - scale * (1/2) - torsoY ≤ pos.2) &&
      decide (pos.2 ≤ (i : ℚ) * scale + scale * (1/2) - torsoY)

/-- Result tuple of `AntMazeEnv.step` restricted to the quantities this
layer decides: the final agent (x, y) stored in the engine, the returned
reward and the returned done flag. -/
structure StepOut where
  pos : ℚ × ℚ
  reward : ℚ
  done : Bool
deriving DecidableEq, Repr

/-- `AntMazeEnv.step`, position/reward/done fragment.  `curPos` is the
engine's `(x, y)` before stepping (`old_pos = self.wrapped_env.get_xy()`),
`enginePos`/`engineReward`/`engineDone` are what `self.wrapped_env.step`
produces.  Under manual-collision mode a post-step position inside a wall
box is rolled back with `set_xy(old_pos)`; the returned `done` is
unconditionally `False` and the reward is passed through. -/
def stepXY (manualCollision : Bool) (g : Grid) (scale torsoX torsoY : ℚ)
    (curPos enginePos : ℚ × ℚ) (engineReward : ℚ) (engineDone : Bool) :
    StepOut :=
  if manualCollision then
    let oldPos := curPos
    let newPos := enginePos
    let finalPos :=
      if isInCollision g scale torsoX torsoY newPos then oldPos else newPos
    { pos := finalPos, reward := engineReward, done := false }
  else
    { pos := enginePos, reward := engineReward, done := false }

/-- `AntMazeEnv.step` including the returned observation: `_get_obs()` is
evaluated only after the optional rollback, so the returned observation
is a function `obsAt` of the (x, y) stored in the engine at that point. -/
def stepWithObs (manualCollision : Bool) (g : Grid)
    (scale torsoX torsoY : ℚ) (curPos enginePos : ℚ × ℚ)
    (engineReward : ℚ) (engineDone : Bool) (obsAt : ℚ × ℚ → List ℚ) :
    List ℚ × StepOut :=
  let out := stepXY manualCollision g scale torsoX torsoY curPos enginePos
    engineReward engineDone
  (obsAt out.pos, out)

/-- One element emitted into the scene description by the compile loop of
`AntMazeEnv.__init__`.  The constructor records the cell indices the
element's name is generated from, together with the numeric attributes
the loop computes. -/
inductive SceneElem where
  | elevatedGeom : ℕ → ℕ → ℚ × ℚ × ℚ → ℚ × ℚ × ℚ → SceneElem
  | wallGeom : ℕ → ℕ → ℚ × ℚ × ℚ → ℚ × ℚ × ℚ → SceneElem
  | movableBody : ℕ → ℕ → MoveVariant → ℚ × ℚ × ℚ → SceneElem
  | blockGeom : ℕ → ℕ → ℚ × ℚ × ℚ → Bool → SceneElem
  | jointX : ℕ → ℕ → Bool → SceneElem
  | jointY : ℕ → ℕ → Bool → SceneElem
  | jointZ : ℕ → ℕ → ℚ × ℚ → SceneElem
  | spinJoint : ℕ → ℕ → SceneElem
deriving DecidableEq, Repr

/-- The name attribute written on a scene element, as an abstract key.
The first component encodes the format string (`"elevated_%d_%d"` → 0,
`"block_%d_%d"` → 1 for both the wall geom and the movable block's geom,
`"movable_%d_%d"` → 2, `"movable_x_%d_%d"` → 3, `"movable_y_%d_%d"` → 4,
`"movable_z_%d_%d"` → 5, `"spinable_%d_%d"` → 6); the remaining two are
the `(i, j)` cell indices interpolated into it.  Two elements carry the
same name string exactly when they map to the same key. -/
def nameOf : SceneElem → ℕ × ℕ × ℕ
  | SceneElem.elevatedGeom i j _ _ => (0, i, j)
  | SceneElem.wallGeom i j _ _ => (1, i, j)
  | SceneElem.blockGeom i j _ _ => (1, i, j)
  | SceneElem.movableBody i j _ _ => (2, i, j)
  | SceneElem.jointX i j _ => (3, i, j)
  | SceneElem.jointY i j _ => (4, i, j)
  | SceneElem.jointZ i j _ => (5, i, j)
  | SceneElem.spinJoint i j => (6, i, j)

/-- The scene elements the compile loop emits for one grid cell `(i, j)`:
an elevated-platform geom under every non-chasm cell of an elevated maze,
a static box geom for a wall cell, and for a movable-block cell a body
with one shrunk geom plus the joints implied by the variant.  Shrink
factors: spinning → 0.1, falling → 0.99, else 1.0. -/
def compileCell (elevated putSpinNearAgent : Bool)
    (scale height torsoX torsoY heightOffset : ℚ)
    (i j : ℕ) (c0 : Cell) : List SceneElem :=
  let c := reinterp putSpinNearAgent c0
  (if elevated && !(c = Cell.chasm : Bool) then
    [SceneElem.elevatedGeom i j
      ((j : ℚ) * scale - torsoX, (i : ℚ) * scale - torsoY, height / 2 * scale)
      (scale * (1/2), scale * (1/2), height / 2 * scale)]
   else []) ++
  (match c with
   | Cell.wall =>
     [SceneElem.wallGeom i j
       ((j : ℚ) * scale - torsoX, (i : ℚ) * scale - torsoY,
        heightOffset + height / 2 * scale)
       (scale * (1/2), scale * (1/2), height / 2 * scale)]
   | Cell.move v =>
     let falling := canMoveZ v
     let spinning := canSpin v
     let xOffset : ℚ := if spinning then scale * (1/4) else 0
     let shrink : ℚ := if spinning then 1/10 else if falling then 99/100 else 1
     let heightShrink : ℚ := if spinning then 1/10 else 1
     [SceneElem.movableBody i j v
        ((j : ℚ) * scale - torsoX + xOffset, (i : ℚ) * scale - torsoY,
         heightOffset + height / 2 * scale * heightShrink),
      SceneElem.blockGeom i j
        (scale * (1/2) * shrink, scale * (1/2) * shrink,
         height / 2 * scale * heightShrink)
        falling] ++
     (if canMoveX v then [SceneElem.jointX i j falling] else []) ++
     (if canMoveY v then [SceneElem.jointY i j falling] else []) ++
     (if canMoveZ v then [SceneElem.jointZ i j (-heightOffset, 0)] else []) ++
     (if canSpin v then [SceneElem.spinJoint i j] else [])
   | _ => [])

/-- The full scene compilation of `AntMazeEnv.__init__`: iterate the grid
in row-major order and emit each cell's elements.  `heightOffset` is
`height * scale` when the maze is elevated, else 0. -/
def compileScene (g : Grid) (putSpinNearAgent : Bool)
    (scale height torsoX torsoY : ℚ) : List SceneElem :=
  let elevated := elevatedOf g
  let heightOffset : ℚ := if elevated then height * scale else 0
  (List.range (numRows g)).flatMap fun i =>
    (List.range (numCols g)).flatMap fun j =>
      compileCell elevated putSpinNearAgent scale height torsoX torsoY
        heightOffset i j (cellAt g i j)

/-- `self.movable_blocks`: the `(name, struct)` pairs appended for every
cell that is movable after the spin reinterpretation; the name
`"movable_%d_%d"` is represented by the `(i, j)` pair. -/
def movableBlocksOf (g : Grid) (putSpinNearAgent : Bool) :
    List (ℕ × ℕ × MoveVariant) :=
  (List.range (numRows g)).flatMap fun i =>
    (List.range (numCols g)).flatMap fun j =>
      match reinterp putSpinNearAgent (cellAt g i j) with
      | Cell.move v => [(i, j, v)]
      | _ => []

/-- The post-compilation check of `AntMazeEnv.__init__` (the loop over
`torso.findall(".//geom")`): a geom is represented by its optional `name`
attribute, and the check passes (no exception) exactly when every geom
has a name attribute, raising otherwise. -/
def torsoGeomsCheck (geomNames : List (Option String)) : Bool :=
  geomNames.all fun n => n.isSome

/-- A line segment of the raycaster's segment list together with the cell
type it was generated from. -/
structure RaySeg where
  pa : ℚ × ℚ
  pb : ℚ × ℚ
  ctype : Cell
deriving DecidableEq, Repr

/-- The four boundary segments of an axis-aligned square cell of side
`scale` centered at `(cx, cy)`, in the order the code lists them. -/
def cellBoundary (cx cy scale : ℚ) : List ((ℚ × ℚ) × (ℚ × ℚ)) :=
  let x1 := cx - scale * (1/2)
  let x2 := cx + scale * (1/2)
  let y1 := cy - scale * (1/2)
  let y2 := cy + scale * (1/2)
  [((x1, y1), (x2, y1)), ((x2, y1), (x2, y2)),
   ((x2, y2), (x1, y2)), ((x1, y2), (x1, y1))]

/-- The wall/chasm part of the raycaster's segment list: four boundary
segments for every grid cell holding a wall or a chasm, tagged with that
cell's type. -/
def wallChasmSegments (g : Grid) (scale torsoX torsoY : ℚ) : List RaySeg :=
  (List.range (numRows g)).flatMap fun i =>
    (List.range (numCols g)).flatMap fun j =>
      if cellAt g i j = Cell.wall ∨ cellAt g i j = Cell.chasm then
        (cellBoundary ((j : ℚ) * scale - torsoX) ((i : ℚ) * scale - torsoY)
          scale).map fun s => { pa := s.1, pb := s.2, ctype := cellAt g i j }
      else []

/-- The movable-block part of the segment list: four boundary segments
around the current body position of every movable block whose z extent
overlaps the robot's z, tagged with the block's variant type. -/
def blockSegments (blocks : List (ℕ × ℕ × MoveVariant))
    (bodyCom : ℕ × ℕ → ℚ × ℚ × ℚ) (robotZ height scale : ℚ) : List RaySeg :=
  blocks.flatMap fun b =>
    let p := bodyCom (b.1, b.2.1)
    if p.2.2 - height * scale / 2 ≤ robotZ ∧ robotZ ≤ p.2.2 + height * scale / 2
    then
      (cellBoundary p.1 p.2.1 scale).map fun s =>
        { pa := s.1, pb := s.2, ctype := Cell.move b.2.2 }
    else []

/-- The channel index computed for the nearest segment's type:
wall → 0, chasm (drop-off) → 1, movable block → 2, `None` otherwise. -/
def chanIdx (c : Cell) : Option (Fin 3) :=
  if c = Cell.wall then some 0
  else if c = Cell.chasm then some 1
  else if canMove c then some 2
  else none

/-- `sorted(ray_segments, key=distance)[0]` as an option: the earliest
element of minimal distance (Python's sort is stable), `none` on the
empty list. -/
def firstMinBy : List (RaySeg × ℚ) → Option (RaySeg × ℚ)
  | [] => none
  | s :: rest =>
    match firstMinBy rest with
    | none => some s
    | some m => if m.2 < s.2 then some m else some s

/-- Writing strength `v` into one row of the reading matrix at the
computed channel.  `none` models numpy's `row[None] = v`, which inserts a
new axis and broadcasts `v` over all three channels. -/
def writeReading (idx : Option (Fin 3)) (v : ℚ) : List ℚ :=
  match idx with
  | some ⟨0, _⟩ => [v, 0, 0]
  | some ⟨1, _⟩ => [0, v, 0]
  | some _ => [0, 0, v]
  | none => [v, v, v]

/-- One row of the reading matrix: if some segment intersects the ray,
take the nearest one; when its distance is within the sensor range write
`(range - distance) / range` into the channel of its type, otherwise the
row stays `[0, 0, 0]`. -/
def rayReading (sensorRange : ℚ) (raySegs : List (RaySeg × ℚ)) : List ℚ :=
  match firstMinBy raySegs with
  | none => [0, 0, 0]
  | some first =>
    if first.2 ≤ sensorRange then
      writeReading (chanIdx first.1.ctype) ((sensorRange - first.2) / sensorRange)
    else [0, 0, 0]

/-- The angle of ray `k` out of `nBins`:
`ori - span * 0.5 + (2k + 1) / (2 * nBins) * span`. -/
def rayAngle (ori span : ℚ) (nBins k : ℕ) : ℚ :=
  ori - span * (1/2) + (2 * (k : ℚ) + 1) / (2 * (nBins : ℚ)) * span

/-- `AntMazeEnv.get_range_sensor_obs`.  `robot` is the torso's body
position, `ori` its orientation, `bodyCom` the engine's body table, and
`intersectDist` is modelled from the spec: the composition of
`maze_env_utils.ray_segment_intersect` and `maze_env_utils.point_distance`
(both absent from the sources) — the distance from the ray origin to the
intersection point with the segment, `none` when the ray misses.
`sensorRange` is the already-scaled `self._sensor_range`. -/
def getRangeSensorObs (g : Grid) (putSpinNearAgent : Bool)
    (scale height torsoX torsoY : ℚ) (nBins : ℕ) (sensorRange span : ℚ)
    (robot : ℚ × ℚ × ℚ) (ori : ℚ)
    (bodyCom : ℕ × ℕ → ℚ × ℚ × ℚ)
    (intersectDist : (ℚ × ℚ) → ℚ → RaySeg → Option ℚ) : List (List ℚ) :=
  let segments :=
    wallChasmSegments g scale torsoX torsoY ++
    blockSegments (movableBlocksOf g putSpinNearAgent) bodyCom robot.2.2
      height scale
  (List.range nBins).map fun k =>
    let rayOri := rayAngle ori span nBins k
    let raySegs := segments.filterMap fun s =>
      (intersectDist (robot.1, robot.2.1) rayOri s).map fun d => (s, d)
    rayReading sensorRange raySegs

/-- `AntMazeEnv._get_obs`: optional normalized top-down pixels, then the
wrapped proprioceptive vector with block body positions spliced in after
its first 3 components when block observation is on, then the flattened
range-sensor rows, then `t * 0.001`. -/
def getObs (topDownView observeBlocks : Bool) (pixels wrappedObs : List ℚ)
    (blocks : List (ℕ × ℕ × MoveVariant)) (bodyCom : ℕ × ℕ → ℚ × ℚ × ℚ)
    (sensorRows : List (List ℚ)) (t : ℕ) : List ℚ :=
  let view := if topDownView then pixels.map (fun p => p / 255) else []
  let wrapped :=
    if observeBlocks then
      wrappedObs.take 3 ++
      (blocks.flatMap fun b =>
        let p := bodyCom (b.1, b.2.1)
        [p.1, p.2.1, p.2.2]) ++
      wrappedObs.drop 3
    else wrappedObs
  view ++ wrapped ++ sensorRows.flatten ++ [(t : ℚ) * (1/1000)]

/-- The declared observation space: shape, and whether the bounds are
`-inf` / `+inf` everywhere. -/
structure BoxSpace where
  shape : ℕ
  lowNegInf : Bool
  highPosInf : Bool
deriving DecidableEq, Repr

/-- `AntMazeEnv.observation_space`: an unbounded box whose shape is the
shape of the observation produced by a probe `_get_obs()` call. -/
def observationSpace (topDownView observeBlocks : Bool)
    (pixels wrappedObs : List ℚ) (blocks : List (ℕ × ℕ × MoveVariant))
    (bodyCom : ℕ × ℕ → ℚ × ℚ × ℚ) (sensorRows : List (List ℚ)) (t : ℕ) :
    BoxSpace :=
  { shape := (getObs topDownView observeBlocks pixels wrappedObs blocks
      bodyCom sensorRows t).length
    lowNegInf := true
    highPosInf := true }

/-- `self._init_positions`: each robot start coordinate re-centered by the
first robot's position. -/
def initPositionsOf (g : Grid) (scale torsoX torsoY : ℚ) : List (ℚ × ℚ) :=
  (findAllRobots g scale).map fun p => (p.1 - torsoX, p.2 - torsoY)

/-- The state `reset()` leaves behind: step counter, trajectory log and
the agent's (x, y). -/
structure ResetOut where
  t : ℕ
  trajectory : List (ℚ × ℚ)
  pos : ℚ × ℚ
deriving DecidableEq, Repr

/-- `AntMazeEnv.reset`: zero the step counter, empty the trajectory,
delegate to the engine's reset (which leaves the agent at
`engineResetPos`), then — only when more than one start position exists —
overwrite (x, y) with `random.choice(self._init_positions)`, modelled by
the index `choice` into that list. -/
def resetEnv (initPositions : List (ℚ × ℚ)) (engineResetPos : ℚ × ℚ)
    (choice : ℕ) : ResetOut :=
  { t := 0
    trajectory := []
    pos :=
      if 1 < initPositions.length then initPositions.getD choice engineResetPos
      else engineResetPos }

/-- A sample segment: the first boundary segment emitted for the wall
cell of the grid `[[wall]]` with scale 2 and torso offset 0, used to
instantiate theorems at a concrete input. -/
def wallSegSample : RaySeg :=
  { pa := (-1, -1), pb := (1, -1), ctype := Cell.wall }

/-! ### Helper lemmas -/

theorem filterMap_range_eq_nil {α : Type} (f : ℕ → Option α) (n : ℕ)
    (h : ∀ m, m < n → f m = none) : (List.range n).filterMap f = [] := by
  rw [List.filterMap_eq_nil_iff]
  intro a ha
  exact h a (List.mem_range.mp ha)

theorem filterMap_range_singleton {α : Type} (f : ℕ → Option α) (n k : ℕ)
    (v : α) (hk : k < n) (hv : f k = some v)
    (h : ∀ m, m < n → m ≠ k → f m = none) :
    (List.range n).filterMap f = [v] := by
  induction n with
  | zero => omega
  | succ n ih =>
    rw [List.range_succ, List.filterMap_append]
    rcases Nat.lt_or_ge k n with hkn | hkn
    · rw [ih hkn (fun m hm hmk => h m (Nat.lt_succ_of_lt hm) hmk)]
      have hn : f n = none := h n (Nat.lt_succ_self n) (by omega)
      simp [hn]
    · have hkeq : k = n := by omega
      subst hkeq
      have hnil : (List.range k).filterMap f = [] :=
        filterMap_range_eq_nil f k
          (fun m hm => h m (Nat.lt_succ_of_lt hm) (by omega))
      simp [hnil, hv]

theorem flatMap_range_eq_nil {α : Type} (f : ℕ → List α) (n : ℕ)
    (h : ∀ m, m < n → f m = []) : (List.range n).flatMap f = [] := by
  induction n with
  | zero => simp
  | succ n ih =>
    rw [List.range_succ, List.flatMap_append]
    rw [ih (fun m hm => h m (Nat.lt_succ_of_lt hm))]
    simp [h n (Nat.lt_succ_self n)]

theorem flatMap_range_singleton {α : Type} (f : ℕ → List α) (n k : ℕ)
    (l : List α) (hk : k < n) (hv : f k = l)
    (h : ∀ m, m < n → m ≠ k → f m = []) :
    (List.range n).flatMap f = l := by
  induction n with
  | zero => omega
  | succ n ih =>
    rw [List.range_succ, List.flatMap_append]
    rcases Nat.lt_or_ge k n with hkn | hkn
    · rw [ih hkn (fun m hm hmk => h m (Nat.lt_succ_of_lt hm) hmk)]
      have hn : f n = [] := h n (Nat.lt_succ_self n) (by omega)
      simp [hn]
    · have hkeq : k = n := by omega
      subst hkeq
      have hnil : (List.range k).flatMap f = [] :=
        flatMap_range_eq_nil f k
          (fun m hm => h m (Nat.lt_succ_of_lt hm) (by omega))
      simp [hnil, hv]

/-- `findRobot` is the head of `findAllRobots`. -/
theorem findRobot_eq_head (g : Grid) (scale : ℚ) :
    findRobot g scale = (findAllRobots g scale).head? := rfl

/-! ### Claim theorems -/

/-- C2: for every `step(action)` call, whatever the manual-collision flag
and whatever done flag the engine reports, the returned `done` is `False`
and the returned reward is exactly the engine's reward. -/
theorem step_done_false_reward_passthrough
    (manualCollision : Bool) (g : Grid) (scale torsoX torsoY : ℚ)
    (curPos enginePos : ℚ × ℚ) (engineReward : ℚ) (engineDone : Bool) :
    (stepXY manualCollision g scale torsoX torsoY curPos enginePos
        engineReward engineDone).done = false ∧
    (stepXY manualCollision g scale torsoX torsoY curPos enginePos
        engineReward engineDone).reward = engineReward := by
  unfold stepXY
  by_cases h : manualCollision <;> simp [h]

/-- C1: under manual-collision mode, a post-step engine position inside
the axis-aligned box `[center - scale/2, center + scale/2]` of some wall
cell is rolled back to the position recorded before the engine step (so
the observation, a function of the stored position, is taken at the
restored position); otherwise the engine's position is kept.  The first
conjunct identifies the code's collision test with the claim's
wall-bounds condition. -/
theorem step_manual_collision_rollback
    (g : Grid) (scale torsoX torsoY : ℚ) (curPos enginePos : ℚ × ℚ)
    (engineReward : ℚ) (engineDone : Bool) :
    (isInCollision g scale torsoX torsoY enginePos = true ↔
      ∃ i, i < numRows g ∧ ∃ j, j < numCols g ∧
        cellAt g i j = Cell.wall ∧
        (j : ℚ) * scale - torsoX - scale * (1/2) ≤ enginePos.1 ∧
        enginePos.1 ≤ (j : ℚ) * scale - torsoX + scale * (1/2) ∧
        (i : ℚ) * scale - torsoY - scale * (1/2) ≤ enginePos.2 ∧
        enginePos.2 ≤ (i : ℚ) * scale - torsoY + scale * (1/2)) ∧
    (isInCollision g scale torsoX torsoY enginePos = true →
      (stepXY true g scale torsoX torsoY curPos enginePos engineReward
        engineDone).pos = curPos ∧
      ∀ obsAt : ℚ × ℚ → List ℚ,
        (stepWithObs true g scale torsoX torsoY curPos enginePos
          engineReward engineDone obsAt).1 = obsAt curPos) ∧
    (isInCollision g scale torsoX torsoY enginePos = false →
      (stepXY true g scale torsoX torsoY curPos enginePos engineReward
        engineDone).pos = enginePos ∧
      ∀ obsAt : ℚ × ℚ → List ℚ,
        (stepWithObs true g scale torsoX torsoY curPos enginePos
          engineReward engineDone obsAt).1 = obsAt enginePos) := by
  refine ⟨?_, ?_, ?_⟩
  · unfold isInCollision
    simp only [List.any_eq_true, List.mem_range, decide_eq_true_eq,
      Bool.and_eq_true]
    constructor
    · rintro ⟨i, hi, j, hj, ⟨⟨⟨⟨hw, h1⟩, h2⟩, h3⟩, h4⟩⟩
      exact ⟨i, hi, j, hj, by simpa using hw,
        by linarith, by linarith, by linarith, by linarith⟩
    · rintro ⟨i, hi, j, hj, hw, h1, h2, h3, h4⟩
      exact ⟨i, hi, j, hj,
        ⟨⟨⟨⟨by simpa using hw, by linarith⟩, by linarith⟩, by linarith⟩,
          by linarith⟩⟩
  · intro h
    exact ⟨by simp [stepXY, h], fun obsAt => by simp [stepWithObs, stepXY, h]⟩
  · intro h
    exact ⟨by simp [stepXY, h], fun obsAt => by simp [stepWithObs, stepXY, h]⟩

/-- Witness for C1 on a concrete one-wall grid: the wall cell of
`[[wall]]` with scale 8 and torso offset 0 covers `[-4, 4]²`; an engine
position `(1, 2)` inside it is rolled back to the pre-step `(10, 10)`,
while `(10, 10)` itself (outside every wall box) is kept. -/
theorem step_manual_collision_rollback_witness :
    (stepXY true [[Cell.wall]] 8 0 0 (10, 10) (1, 2) 5 true).pos =
      (10, 10) ∧
    (stepXY true [[Cell.wall]] 8 0 0 (10, 10) (20, 20) 5 true).pos =
      (20, 20) :=
  ⟨((step_manual_collision_rollback [[Cell.wall]] 8 0 0 (10, 10) (1, 2) 5
      true).2.1
      (by norm_num [isInCollision, numRows, numCols, cellAt,
        List.range_succ])).1,
   ((step_manual_collision_rollback [[Cell.wall]] 8 0 0 (10, 10) (20, 20) 5
      true).2.2
      (by norm_num [isInCollision, numRows, numCols, cellAt,
        List.range_succ])).1⟩

/-- C9: a grid whose only robot cell sits at row `i`, column `j` makes
`_find_robot` return `(j * size_scaling, i * size_scaling)` and
`_find_all_robots` return exactly that coordinate; a grid with no robot
cell makes `_find_robot` fail (the `assert False`, modelled as `none`). -/
theorem findRobot_unique_or_missing (g : Grid) (scale : ℚ) (i j : ℕ) :
    (i < numRows g → j < numCols g → cellAt g i j = Cell.robot →
      (∀ i2 j2, i2 < numRows g → j2 < numCols g →
        cellAt g i2 j2 = Cell.robot → i2 = i ∧ j2 = j) →
      findRobot g scale = some ((j : ℚ) * scale, (i : ℚ) * scale) ∧
      findAllRobots g scale = [((j : ℚ) * scale, (i : ℚ) * scale)]) ∧
    ((∀ i2 j2, i2 < numRows g → j2 < numCols g →
        cellAt g i2 j2 ≠ Cell.robot) →
      findRobot g scale = none) := by
  constructor
  · intro hi hj hr huniq
    have hall : findAllRobots g scale =
        [((j : ℚ) * scale, (i : ℚ) * scale)] := by
      unfold findAllRobots
      apply flatMap_range_singleton _ _ i _ hi
      · apply filterMap_range_singleton _ _ j _ hj
        · simp [hr]
        · intro m hm hmj
          have : cellAt g i m ≠ Cell.robot := fun hc =>
            hmj (huniq i m hi hm hc).2
          simp [this]
      · intro m hm hmi
        apply filterMap_range_eq_nil
        intro m2 hm2
        have : cellAt g m m2 ≠ Cell.robot := fun hc =>
          hmi (huniq m m2 hm hm2 hc).1
        simp [this]
    exact ⟨by rw [findRobot_eq_head, hall]; rfl, hall⟩
  · intro hnone
    have hall : findAllRobots g scale = [] := by
      unfold findAllRobots
      apply flatMap_range_eq_nil
      intro m hm
      apply filterMap_range_eq_nil
      intro m2 hm2
      simp [hnone m m2 hm hm2]
    rw [findRobot_eq_head, hall]
    rfl

/-- Witness for C9: the 2×2 grid `[[free, robot], [wall, free]]` has its
single robot cell at row 0, column 1, so with scale 8 the robot is found
at `(8, 0)`; the all-wall grid `[[wall]]` has no robot cell and
`findRobot` fails. -/
theorem findRobot_unique_or_missing_witness :
    (findRobot [[Cell.free, Cell.robot], [Cell.wall, Cell.free]] 8 =
        some (8, 0) ∧
      findAllRobots [[Cell.free, Cell.robot], [Cell.wall, Cell.free]] 8 =
        [(8, 0)]) ∧
    findRobot [[Cell.wall]] 8 = none := by
  constructor
  · have h :=
      (findRobot_unique_or_missing
        [[Cell.free, Cell.robot], [Cell.wall, Cell.free]] 8 0 1).1
        (by decide) (by decide) (by decide)
        (by
          intro i2 j2 hi2 hj2 hc
          simp only [numRows, List.length_cons, List.length_nil] at hi2
          simp only [numCols, List.headD_cons, List.length_cons,
            List.length_nil] at hj2
          interval_cases i2 <;> interval_cases j2 <;> revert hc <;> decide)
    simpa using h
  · exact (findRobot_unique_or_missing [[Cell.wall]] 8 0 0).2
      (by
        intro i2 j2 hi2 hj2
        simp only [numRows, List.length_cons, List.length_nil] at hi2
        simp only [numCols, List.headD_cons, List.length_cons,
          List.length_nil] at hj2
        interval_cases i2 <;> interval_cases j2 <;> decide)

/-- C7: `reset()` zeroes the step counter, empties the trajectory log,
and — after the engine reset — force-sets the agent's (x, y) to a chosen
precomputed start offset exactly when the grid has more than one robot
start; with at most one start, the engine's reset position stands.  The
uniform random draw of `random.choice` is modelled by the free index
`choice`. -/
theorem reset_state_and_position (g : Grid) (scale torsoX torsoY : ℚ)
    (engineResetPos : ℚ × ℚ) (choice : ℕ)
    (hc : choice < (initPositionsOf g scale torsoX torsoY).length) :
    (resetEnv (initPositionsOf g scale torsoX torsoY) engineResetPos
        choice).t = 0 ∧
    (resetEnv (initPositionsOf g scale torsoX torsoY) engineResetPos
        choice).trajectory = [] ∧
    (1 < (initPositionsOf g scale torsoX torsoY).length →
      (resetEnv (initPositionsOf g scale torsoX torsoY) engineResetPos
          choice).pos =
        (initPositionsOf g scale torsoX torsoY).get ⟨choice, hc⟩ ∧
      (resetEnv (initPositionsOf g scale torsoX torsoY) engineResetPos
          choice).pos ∈ initPositionsOf g scale torsoX torsoY) ∧
    ((initPositionsOf g scale torsoX torsoY).length ≤ 1 →
      (resetEnv (initPositionsOf g scale torsoX torsoY) engineResetPos
          choice).pos = engineResetPos) := by
  refine ⟨rfl, rfl, ?_, ?_⟩
  · intro hlen
    have hpos : (resetEnv (initPositionsOf g scale torsoX torsoY)
        engineResetPos choice).pos =
        (initPositionsOf g scale torsoX torsoY).get ⟨choice, hc⟩ := by
      simp [resetEnv, hlen, List.getD_eq_getElem?_getD,
        List.getElem?_eq_getElem hc]
    exact ⟨hpos, hpos ▸ List.get_mem _ _ hc⟩
  · intro hlen
    simp [resetEnv]
    omega

/-- Witness for C7 on the two-start grid `[[robot, robot]]` with scale 8:
the offsets are `[(0, 0), (8, 0)]`, a choice index 1 force-sets the
position to `(8, 0)`; the engine reset position `(3, 3)` is discarded. -/
theorem reset_state_and_position_witness :
    (resetEnv (initPositionsOf [[Cell.robot, Cell.robot]] 8 0 0) (3, 3)
        1).t = 0 ∧
    (resetEnv (initPositionsOf [[Cell.robot, Cell.robot]] 8 0 0) (3, 3)
        1).pos = (8, 0) := by
  have hlist : initPositionsOf [[Cell.robot, Cell.robot]] 8 0 0 =
      [(0, 0), (8, 0)] := by
    norm_num [initPositionsOf, findAllRobots, numRows, numCols, cellAt,
      List.range_succ, List.filterMap_cons]
  have h := reset_state_and_position [[Cell.robot, Cell.robot]] 8 0 0
    (3, 3) 1 (by rw [hlist]; norm_num)
  refine ⟨h.1, ?_⟩
  have h2 := (h.2.2.1 (by rw [hlist]; norm_num)).1
  rw [h2]
  simp [hlist]

/-- Every row written by `writeReading` has 3 entries. -/
theorem writeReading_length (idx : Option (Fin 3)) (v : ℚ) :
    (writeReading idx v).length = 3 := by
  rcases idx with _ | ⟨k, hk⟩
  · rfl
  · interval_cases k <;> rfl

/-- Every row of the reading matrix has 3 entries. -/
theorem rayReading_length (sensorRange : ℚ) (raySegs : List (RaySeg × ℚ)) :
    (rayReading sensorRange raySegs).length = 3 := by
  unfold rayReading
  cases h : firstMinBy raySegs with
  | none => rfl
  | some first =>
    by_cases hle : first.2 ≤ sensorRange
    · simp [hle, writeReading_length]
    · simp [hle]

/-- `firstMinBy` returns `none` exactly on the empty list, and otherwise
an element of the list whose distance is minimal (the earliest one, as
Python's stable sort guarantees). -/
theorem firstMinBy_spec (l : List (RaySeg × ℚ)) :
    (firstMinBy l = none ↔ l = []) ∧
    ∀ m, firstMinBy l = some m → m ∈ l ∧ ∀ x ∈ l, m.2 ≤ x.2 := by
  induction l with
  | nil =>
    refine ⟨by simp [firstMinBy], fun m h => ?_⟩
    simp [firstMinBy] at h
  | cons s t ih =>
    constructor
    · constructor
      · intro h
        exfalso
        unfold firstMinBy at h
        cases ht : firstMinBy t with
        | none => rw [ht] at h; cases h
        | some m2 =>
          rw [ht] at h
          dsimp only at h
          by_cases hlt : m2.2 < s.2
          · rw [if_pos hlt] at h; cases h
          · rw [if_neg hlt] at h; cases h
      · intro h; cases h
    · intro m h
      unfold firstMinBy at h
      cases ht : firstMinBy t with
      | none =>
        rw [ht] at h
        have hm : m = s := by cases h; rfl
        subst hm
        have htnil : t = [] := ih.1.mp ht
        subst htnil
        exact ⟨List.mem_cons_self _ _, by simp⟩
      | some m2 =>
        rw [ht] at h
        dsimp only at h
        obtain ⟨hm2mem, hm2min⟩ := ih.2 m2 ht
        by_cases hlt : m2.2 < s.2
        · rw [if_pos hlt] at h
          have hm : m = m2 := by cases h; rfl
          subst hm
          refine ⟨List.mem_cons_of_mem _ hm2mem, fun x hx => ?_⟩
          rcases List.mem_cons.mp hx with rfl | hx
          · exact le_of_lt hlt
          · exact hm2min x hx
        · rw [if_neg hlt] at h
          have hm : m = s := by cases h; rfl
          subst hm
          push_neg at hlt
          refine ⟨List.mem_cons_self _ _, fun x hx => ?_⟩
          rcases List.mem_cons.mp hx with rfl | hx
          · exact le_refl _
          · exact le_trans hlt (hm2min x hx)

/-- Reading `writeReading (some c) v` at channel `c` gives `v`; the other
two channels give 0. -/
theorem writeReading_getD (c : Fin 3) (v : ℚ) :
    (writeReading (some c) v).getD c.1 0 = v ∧
    ∀ c2 : Fin 3, c2 ≠ c → (writeReading (some c) v).getD c2.1 0 = 0 := by
  rcases c with ⟨k, hk⟩
  interval_cases k <;>
    refine ⟨rfl, ?_⟩ <;>
    · rintro ⟨k2, hk2⟩ hne
      rw [Ne, Fin.mk_eq_mk] at hne
      interval_cases k2 <;> first | rfl | exact absurd rfl hne

/-- Every entry of `writeReading idx v` is `v` or 0. -/
theorem writeReading_mem (idx : Option (Fin 3)) (v : ℚ) :
    ∀ x ∈ writeReading idx v, x = v ∨ x = 0 := by
  intro x hx
  rcases idx with _ | ⟨k, hk⟩
  · simp only [writeReading, List.mem_cons, List.not_mem_nil,
      or_false] at hx
    rcases hx with rfl | rfl | rfl
    · exact Or.inl rfl
    · exact Or.inl rfl
    · exact Or.inl rfl
  · interval_cases k <;>
    · simp only [writeReading, List.mem_cons, List.not_mem_nil,
        or_false] at hx
      rcases hx with rfl | rfl | rfl <;>
        first | exact Or.inl rfl | exact Or.inr rfl

/-- A member of `[0, 0, 0]` is 0. -/
theorem mem_zeros3 (v : ℚ) (h : v ∈ ([0, 0, 0] : List ℚ)) : v = 0 := by
  simp only [List.mem_cons, List.not_mem_nil, or_false] at h
  rcases h with rfl | rfl | rfl <;> rfl

/-- C4: raycasting with `n_bins = N` produces a reading matrix of `N`
rows with 3 channels each, and row `k` is computed at the ray angle
`ori - span/2 + (2k+1)/(2N) * span`. -/
theorem rangeSensor_shape_and_ray_angles
    (g : Grid) (putSpinNearAgent : Bool) (scale height torsoX torsoY : ℚ)
    (nBins : ℕ) (sensorRange span : ℚ) (robot : ℚ × ℚ × ℚ) (ori : ℚ)
    (bodyCom : ℕ × ℕ → ℚ × ℚ × ℚ)
    (intersectDist : (ℚ × ℚ) → ℚ → RaySeg → Option ℚ) :
    (getRangeSensorObs g putSpinNearAgent scale height torsoX torsoY nBins
        sensorRange span robot ori bodyCom intersectDist).length = nBins ∧
    (∀ k : Fin nBins,
      ((getRangeSensorObs g putSpinNearAgent scale height torsoX torsoY
          nBins sensorRange span robot ori bodyCom
          intersectDist).getD k.1 []).length = 3) ∧
    (∀ k : Fin nBins,
      rayAngle ori span nBins k.1 =
        ori - span / 2 + (2 * (k.1 : ℚ) + 1) / (2 * (nBins : ℚ)) * span) ∧
    (∀ k : Fin nBins,
      (getRangeSensorObs g putSpinNearAgent scale height torsoX torsoY
          nBins sensorRange span robot ori bodyCom
          intersectDist).getD k.1 [] =
        rayReading sensorRange
          ((wallChasmSegments g scale torsoX torsoY ++
            blockSegments (movableBlocksOf g putSpinNearAgent) bodyCom
              robot.2.2 height scale).filterMap fun s =>
            (intersectDist (robot.1, robot.2.1)
              (rayAngle ori span nBins k.1) s).map fun d => (s, d))) := by
  have hget : ∀ k : Fin nBins,
      (getRangeSensorObs g putSpinNearAgent scale height torsoX torsoY
          nBins sensorRange span robot ori bodyCom
          intersectDist).getD k.1 [] =
        rayReading sensorRange
          ((wallChasmSegments g scale torsoX torsoY ++
            blockSegments (movableBlocksOf g putSpinNearAgent) bodyCom
              robot.2.2 height scale).filterMap fun s =>
            (intersectDist (robot.1, robot.2.1)
              (rayAngle ori span nBins k.1) s).map fun d => (s, d)) := by
    intro k
    have hk := k.2
    simp only [getRangeSensorObs, List.getD_eq_getElem?_getD,
      List.getElem?_map, List.getElem?_range, hk, if_pos]
    rfl
  refine ⟨?_, ?_, ?_, hget⟩
  · simp [getRangeSensorObs]
  · intro k
    rw [hget k]
    exact rayReading_length _ _
  · intro k
    unfold rayAngle
    ring

/-- C5: for each ray, `firstMinBy` selects a segment of minimal
intersection distance; when that distance is within the sensor range, the
strength `(range - d)/range` is written into exactly the channel of the
nearest segment's type and the other two channels stay 0; if nothing is
in range the row is all zeros; and every reading value lies in `[0, 1]`. -/
theorem rayReading_nearest_channel (sensorRange : ℚ)
    (raySegs : List (RaySeg × ℚ)) (hrange : 0 < sensorRange)
    (hdist : ∀ sd ∈ raySegs, 0 ≤ sd.2)
    (htype : ∀ sd ∈ raySegs, (chanIdx sd.1.ctype).isSome = true) :
    (∀ m, firstMinBy raySegs = some m →
      (m ∈ raySegs ∧ ∀ sd ∈ raySegs, m.2 ≤ sd.2) ∧
      (m.2 ≤ sensorRange →
        rayReading sensorRange raySegs =
          writeReading (chanIdx m.1.ctype)
            ((sensorRange - m.2) / sensorRange) ∧
        ∃ c : Fin 3, chanIdx m.1.ctype = some c ∧
          (rayReading sensorRange raySegs).getD c.1 0 =
            (sensorRange - m.2) / sensorRange ∧
          ∀ c2 : Fin 3, c2 ≠ c →
            (rayReading sensorRange raySegs).getD c2.1 0 = 0) ∧
      (sensorRange < m.2 →
        rayReading sensorRange raySegs = [0, 0, 0])) ∧
    (raySegs = [] → rayReading sensorRange raySegs = [0, 0, 0]) ∧
    (∀ v ∈ rayReading sensorRange raySegs, 0 ≤ v ∧ v ≤ 1) := by
  refine ⟨?_, ?_, ?_⟩
  · intro m hm
    obtain ⟨hmem, hmin⟩ := (firstMinBy_spec raySegs).2 m hm
    refine ⟨⟨hmem, hmin⟩, ?_, ?_⟩
    · intro hle
      have heq : rayReading sensorRange raySegs =
          writeReading (chanIdx m.1.ctype)
            ((sensorRange - m.2) / sensorRange) := by
        unfold rayReading
        rw [hm]
        dsimp only
        rw [if_pos hle]
      obtain ⟨c, hc⟩ := Option.isSome_iff_exists.mp (htype m hmem)
      refine ⟨heq, c, hc, ?_, ?_⟩
      · rw [heq, hc]
        exact (writeReading_getD c _).1
      · intro c2 hne
        rw [heq, hc]
        exact (writeReading_getD c _).2 c2 hne
    · intro hgt
      unfold rayReading
      rw [hm]
      dsimp only
      rw [if_neg (not_le.mpr hgt)]
  · intro h
    subst h
    rfl
  · intro v hv
    cases hfm : firstMinBy raySegs with
    | none =>
      have hrow : rayReading sensorRange raySegs = [0, 0, 0] := by
        unfold rayReading
        rw [hfm]
      rw [hrow] at hv
      rw [mem_zeros3 v hv]
      exact ⟨le_refl 0, by norm_num⟩
    | some m =>
      obtain ⟨hmem, _⟩ := (firstMinBy_spec raySegs).2 m hfm
      by_cases hle : m.2 ≤ sensorRange
      · have hrow : rayReading sensorRange raySegs =
            writeReading (chanIdx m.1.ctype)
              ((sensorRange - m.2) / sensorRange) := by
          unfold rayReading
          rw [hfm]
          dsimp only
          rw [if_pos hle]
        rw [hrow] at hv
        have hval : 0 ≤ (sensorRange - m.2) / sensorRange ∧
            (sensorRange - m.2) / sensorRange ≤ 1 := by
          constructor
          · apply div_nonneg (by linarith) (le_of_lt hrange)
          · rw [div_le_one hrange]
            have := hdist m hmem
            linarith
        rcases writeReading_mem _ _ v hv with rfl | rfl
        · exact hval
        · exact ⟨le_refl 0, by norm_num⟩
      · have hrow : rayReading sensorRange raySegs = [0, 0, 0] := by
          unfold rayReading
          rw [hfm]
          dsimp only
          rw [if_neg hle]
        rw [hrow] at hv
        rw [mem_zeros3 v hv]
        exact ⟨le_refl 0, by norm_num⟩

/-- Witness for C5 on one wall segment at distance 1 with sensor range 2:
the wall channel reads `(2 - 1)/2 = 1/2`, the other channels stay 0. -/
theorem rayReading_nearest_channel_witness :
    rayReading 2
      [({ pa := (0, 0), pb := (1, 0), ctype := Cell.wall }, 1)] =
      [1/2, 0, 0] := by
  have h := rayReading_nearest_channel 2
    [({ pa := (0, 0), pb := (1, 0), ctype := Cell.wall }, 1)]
    (by norm_num)
    (by
      intro sd hsd
      rcases List.mem_singleton.mp hsd with rfl
      norm_num)
    (by
      intro sd hsd
      rcases List.mem_singleton.mp hsd with rfl
      rfl)
  have heq := ((h.1 _ rfl).2.1 (by norm_num)).1
  rw [heq]
  norm_num [chanIdx, writeReading]

/-- C10: every segment placed in the raycaster's segment list is typed as
a wall, a chasm, or a movable-block variant, so its channel index is
never the `None` fallback. -/
theorem segment_types_have_channel (g : Grid) (putSpinNearAgent : Bool)
    (scale height torsoX torsoY robotZ : ℚ)
    (bodyCom : ℕ × ℕ → ℚ × ℚ × ℚ) :
    ∀ s ∈ wallChasmSegments g scale torsoX torsoY ++
        blockSegments (movableBlocksOf g putSpinNearAgent) bodyCom robotZ
          height scale,
      (s.ctype = Cell.wall ∨ s.ctype = Cell.chasm ∨
        ∃ v, s.ctype = Cell.move v) ∧
      (chanIdx s.ctype).isSome = true := by
  intro s hs
  rcases List.mem_append.mp hs with h | h
  · unfold wallChasmSegments at h
    rw [List.mem_flatMap] at h
    obtain ⟨i, hi, h⟩ := h
    rw [List.mem_flatMap] at h
    obtain ⟨j, hj, h⟩ := h
    by_cases hc : cellAt g i j = Cell.wall ∨ cellAt g i j = Cell.chasm
    · rw [if_pos hc] at h
      rw [List.mem_map] at h
      obtain ⟨seg, hseg, rfl⟩ := h
      rcases hc with hc | hc <;> simp [chanIdx, hc]
    · rw [if_neg hc] at h
      cases h
  · unfold blockSegments at h
    rw [List.mem_flatMap] at h
    obtain ⟨b, hb, h⟩ := h
    simp only at h
    by_cases hz : (bodyCom (b.1, b.2.1)).2.2 - height * scale / 2 ≤ robotZ ∧
        robotZ ≤ (bodyCom (b.1, b.2.1)).2.2 + height * scale / 2
    · rw [if_pos hz] at h
      rw [List.mem_map] at h
      obtain ⟨seg, hseg, rfl⟩ := h
      refine ⟨Or.inr (Or.inr ⟨b.2.2, rfl⟩), ?_⟩
      simp [chanIdx, canMove]
    · rw [if_neg hz] at h
      cases h

/-- Witness for C10: in the one-wall grid `[[wall]]` with scale 2, the
first boundary segment of the wall cell is in the segment list and its
type has channel index 0. -/
theorem segment_types_have_channel_witness :
    wallSegSample.ctype = Cell.wall ∧
    (chanIdx wallSegSample.ctype).isSome = true := by
  have h := segment_types_have_channel [[Cell.wall]] false 2 1 0 0 0
    (fun _ => (0, 0, 0)) wallSegSample
    (by
      rw [List.mem_append]
      left
      norm_num [wallSegSample, wallChasmSegments, numRows, numCols, cellAt,
        List.range_succ, cellBoundary, RaySeg.mk.injEq, Prod.ext_iff])
  exact ⟨rfl, h.2⟩

/-- Every scene element emitted for cell `(i, j)` carries `(i, j)` in its
name. -/
theorem compileCell_name_pos (elevated putSpin : Bool)
    (scale height tX tY hOff : ℚ) (i j : ℕ) (c0 : Cell) (e : SceneElem)
    (he : e ∈ compileCell elevated putSpin scale height tX tY hOff i j c0) :
    (nameOf e).2 = (i, j) := by
  simp only [compileCell] at he
  cases hre : reinterp putSpin c0 with
  | free =>
    rw [hre] at he
    simp only [List.mem_append, List.mem_ite_nil_right, List.mem_singleton,
      List.not_mem_nil, or_false] at he
    obtain ⟨_, rfl⟩ := he
    rfl
  | robot =>
    rw [hre] at he
    simp only [List.mem_append, List.mem_ite_nil_right, List.mem_singleton,
      List.not_mem_nil, or_false] at he
    obtain ⟨_, rfl⟩ := he
    rfl
  | chasm =>
    rw [hre] at he
    simp at he
  | wall =>
    rw [hre] at he
    simp only [List.mem_append, List.mem_ite_nil_right, List.mem_singleton,
      List.not_mem_nil, or_false] at he
    rcases he with ⟨_, rfl⟩ | rfl <;> rfl
  | move v =>
    rw [hre] at he
    simp only [List.mem_append, List.mem_ite_nil_right, List.mem_singleton,
      List.cons_append, List.nil_append, List.mem_cons,
      List.not_mem_nil, or_false, or_assoc] at he
    rcases he with h | h | h | h | h | h | h <;>
      first
        | (obtain ⟨_, rfl⟩ := h; rfl)
        | (obtain rfl := h; rfl)

/-- The names emitted for a single cell are pairwise distinct. -/
theorem compileCell_names_nodup (elevated putSpin : Bool)
    (scale height tX tY hOff : ℚ) (i j : ℕ) (c0 : Cell) :
    ((compileCell elevated putSpin scale height tX tY hOff i j
      c0).map nameOf).Nodup := by
  simp only [compileCell]
  cases hre : reinterp putSpin c0 with
  | free =>
    split <;> simp [nameOf]
  | robot =>
    split <;> simp [nameOf]
  | chasm =>
    simp [nameOf]
  | wall =>
    split <;> simp [nameOf, Prod.ext_iff]
  | move v =>
    obtain ⟨a, b, c, d⟩ := v
    split <;>
      cases a <;> cases b <;> cases c <;> cases d <;>
        simp [canMoveX, canMoveY, canMoveZ, canSpin, nameOf, Prod.ext_iff]

/-- C3 (amended, part 2 helper is inlined in the theorem): the name
uniqueness across the whole compiled scene. -/
theorem compileScene_names_nodup (g : Grid) (putSpin : Bool)
    (scale height torsoX torsoY : ℚ) :
    ((compileScene g putSpin scale height torsoX torsoY).map
      nameOf).Nodup := by
  simp only [compileScene]
  rw [List.map_flatMap]
  refine List.nodup_flatMap.2 ⟨fun i _ => ?_, ?_⟩
  · rw [List.map_flatMap]
    refine List.nodup_flatMap.2
      ⟨fun j _ => compileCell_names_nodup _ _ _ _ _ _ _ i j _, ?_⟩
    refine List.Pairwise.imp ?_ (List.nodup_range (numCols g))
    intro a b hab x hxa hxb
    obtain ⟨e1, he1, rfl⟩ := List.mem_map.mp hxa
    obtain ⟨e2, he2, hx⟩ := List.mem_map.mp hxb
    have h1 := compileCell_name_pos _ _ _ _ _ _ _ i a _ e1 he1
    have h2 := compileCell_name_pos _ _ _ _ _ _ _ i b _ e2 he2
    rw [hx, h1] at h2
    exact hab (congrArg Prod.snd h2)
  · refine List.Pairwise.imp ?_ (List.nodup_range (numRows g))
    intro a b hab x hxa hxb
    dsimp only at hxa hxb
    obtain ⟨e1, he1m, rfl⟩ := List.mem_map.mp hxa
    obtain ⟨e2, he2m, hx⟩ := List.mem_map.mp hxb
    obtain ⟨ja, hja, he1⟩ := List.mem_flatMap.mp he1m
    obtain ⟨jb, hjb, he2⟩ := List.mem_flatMap.mp he2m
    have h1 := compileCell_name_pos _ _ _ _ _ _ _ a ja _ e1 he1
    have h2 := compileCell_name_pos _ _ _ _ _ _ _ b jb _ e2 he2
    rw [hx, h1] at h2
    exact hab (congrArg Prod.fst h2)

/-- C3 (amended): every element emitted by the scene compiler carries a
unique name — guaranteed by the name-generation scheme for every grid —
while the post-compilation check only enforces that each geometry under
the torso body has a name attribute (it raises exactly when some name is
missing); it does not check uniqueness. -/
theorem compile_names_unique_and_check_presence (g : Grid)
    (putSpin : Bool) (scale height torsoX torsoY : ℚ)
    (gs : List (Option String)) :
    ((compileScene g putSpin scale height torsoX torsoY).map
      nameOf).Nodup ∧
    (torsoGeomsCheck gs = false ↔ ∃ n ∈ gs, n = none) := by
  refine ⟨compileScene_names_nodup g putSpin scale height torsoX torsoY, ?_⟩
  induction gs with
  | nil => simp [torsoGeomsCheck]
  | cons n t ih =>
    cases n with
    | none => simp [torsoGeomsCheck]
    | some s =>
      simp only [torsoGeomsCheck, List.all_cons, Option.isSome_some,
        Bool.true_and] at ih ⊢
      rw [ih]
      simp

/-- C3 counterexample: the post-compilation check passes (does not raise)
on a torso geom list whose two geoms carry the same name, so the check
does not enforce name uniqueness — it only checks presence. -/
theorem torsoGeomsCheck_passes_on_duplicates :
    torsoGeomsCheck [some "torso_geom", some "torso_geom"] = true ∧
    ¬ (["torso_geom", "torso_geom"] : List String).Nodup := by
  constructor
  · rfl
  · simp

/-- C8 counterexample: under `put_spin_near_agent` the cell reinterpreted
as the spin-capable variant is the robot-start cell itself, which is not
a wall-like cell; wall and chasm cells are never reinterpreted. -/
theorem reinterp_targets_robot_cell_counterexample :
    reinterp true Cell.robot = Cell.move MoveVariant.spinXY ∧
    Cell.robot ≠ Cell.wall ∧
    reinterp true Cell.wall = Cell.wall ∧
    reinterp true Cell.chasm = Cell.chasm := by
  decide

/-- C8 (amended): when `put_spin_near_agent` is set, every robot-start
cell is compiled as the spin-capable `SpinXY` movable block: the compiled
scene contains at that cell a movable body with variant `SpinXY`
(x-offset `0.25 * scale`) and a block geom shrunk by the spinning factor
0.1 in every dimension. -/
theorem putSpin_compiles_spinning_block (g : Grid)
    (scale height torsoX torsoY : ℚ) (i j : ℕ)
    (hi : i < numRows g) (hj : j < numCols g)
    (hr : cellAt g i j = Cell.robot) :
    SceneElem.movableBody i j MoveVariant.spinXY
        ((j : ℚ) * scale - torsoX + scale * (1/4),
          (i : ℚ) * scale - torsoY,
          (if elevatedOf g then height * scale else 0) +
            height / 2 * scale * (1/10)) ∈
      compileScene g true scale height torsoX torsoY ∧
    SceneElem.blockGeom i j
        (scale * (1/2) * (1/10), scale * (1/2) * (1/10),
          height / 2 * scale * (1/10)) false ∈
      compileScene g true scale height torsoX torsoY := by
  have hmem : ∀ e : SceneElem,
      e ∈ compileCell (elevatedOf g) true scale height torsoX torsoY
          (if elevatedOf g then height * scale else 0) i j
          (cellAt g i j) →
      e ∈ compileScene g true scale height torsoX torsoY := by
    intro e he
    simp only [compileScene]
    exact List.mem_flatMap.2 ⟨i, List.mem_range.2 hi,
      List.mem_flatMap.2 ⟨j, List.mem_range.2 hj, he⟩⟩
  constructor
  · apply hmem
    rw [hr]
    simp [compileCell, reinterp, canSpin, canMoveZ, MoveVariant.spinXY]
  · apply hmem
    rw [hr]
    simp [compileCell, reinterp, canSpin, canMoveZ, MoveVariant.spinXY]

/-- Witness for C8 (amended) on the grid `[[robot]]` with scale 2 and
height 1: the compiled scene holds a spinning movable body at
`(1/2, 0, 1/10)` and a 0.1-shrunk block geom of size `(1/10, 1/10,
1/10)`. -/
theorem putSpin_compiles_spinning_block_witness :
    SceneElem.movableBody 0 0 MoveVariant.spinXY ((1 : ℚ)/2, 0, 1/10) ∈
      compileScene [[Cell.robot]] true 2 1 0 0 ∧
    SceneElem.blockGeom 0 0 ((1 : ℚ)/10, 1/10, 1/10) false ∈
      compileScene [[Cell.robot]] true 2 1 0 0 := by
  have h := putSpin_compiles_spinning_block [[Cell.robot]] 2 1 0 0 0 0
    (by decide) (by decide) (by decide)
  have hel : elevatedOf [[Cell.robot]] = false := by decide
  constructor
  · convert h.1 using 2
    rw [hel]
    norm_num
  · convert h.2 using 2
    norm_num

/-- The spliced block-position vector contributes 3 entries per block. -/
theorem blockObsVec_length (blocks : List (ℕ × ℕ × MoveVariant))
    (bodyCom : ℕ × ℕ → ℚ × ℚ × ℚ) :
    (blocks.flatMap fun b =>
      [(bodyCom (b.1, b.2.1)).1, (bodyCom (b.1, b.2.1)).2.1,
        (bodyCom (b.1, b.2.1)).2.2]).length = 3 * blocks.length := by
  induction blocks with
  | nil => rfl
  | cons b tl ih =>
    rw [List.flatMap_cons, List.length_append, ih]
    simp only [List.length_cons, List.length_nil]
    ring

/-- The flattening of a list of `c`-element lists has `c * rows`
entries. -/
theorem flatten_length_const {α : Type} (L : List (List α)) (c : ℕ)
    (h : ∀ l ∈ L, l.length = c) : L.flatten.length = c * L.length := by
  induction L with
  | nil => simp
  | cons l tl ih =>
    rw [List.flatten_cons, List.length_append,
      h l (List.mem_cons_self _ _),
      ih (fun l2 hl2 => h l2 (List.mem_cons_of_mem _ hl2))]
    simp only [List.length_cons]
    ring

/-- Every row of the raycaster's output has 3 entries. -/
theorem getRangeSensorObs_rows (g : Grid) (putSpin : Bool)
    (scale height torsoX torsoY : ℚ) (nBins : ℕ) (sensorRange span : ℚ)
    (robot : ℚ × ℚ × ℚ) (ori : ℚ) (bodyCom : ℕ × ℕ → ℚ × ℚ × ℚ)
    (intersectDist : (ℚ × ℚ) → ℚ → RaySeg → Option ℚ) :
    ∀ row ∈ getRangeSensorObs g putSpin scale height torsoX torsoY nBins
        sensorRange span robot ori bodyCom intersectDist,
      row.length = 3 := by
  intro row hrow
  simp only [getRangeSensorObs, List.mem_map] at hrow
  obtain ⟨k, _, rfl⟩ := hrow
  exact rayReading_length _ _

/-- C6: the observation is the fixed concatenation 'optional top-down
pixels, then the wrapped vector with each block's body position spliced
in after its first 3 components when block observation is on, then the
flattened sensor rows, then `t * 0.001`'; with the raycaster's rows its
length is the sum of the active segment lengths; and the declared
observation space is an unbounded box whose shape is the length of the
probe observation. -/
theorem getObs_order_length_space (topDown observeBlocks : Bool)
    (pixels wrappedObs : List ℚ) (blocks : List (ℕ × ℕ × MoveVariant))
    (bodyCom : ℕ × ℕ → ℚ × ℚ × ℚ)
    (g : Grid) (putSpin : Bool) (scale height torsoX torsoY : ℚ)
    (nBins : ℕ) (sensorRange span : ℚ) (robot : ℚ × ℚ × ℚ) (ori : ℚ)
    (intersectDist : (ℚ × ℚ) → ℚ → RaySeg → Option ℚ) (t : ℕ)
    (hw : 3 ≤ wrappedObs.length) :
    (∀ sensorRows : List (List ℚ),
      getObs topDown observeBlocks pixels wrappedObs blocks bodyCom
          sensorRows t =
        (if topDown then pixels.map (fun p => p / 255) else []) ++
        (if observeBlocks then
            wrappedObs.take 3 ++
              (blocks.flatMap fun b =>
                [(bodyCom (b.1, b.2.1)).1, (bodyCom (b.1, b.2.1)).2.1,
                  (bodyCom (b.1, b.2.1)).2.2]) ++
              wrappedObs.drop 3
          else wrappedObs) ++
        sensorRows.flatten ++ [(t : ℚ) * (1/1000)]) ∧
    (getObs topDown observeBlocks pixels wrappedObs blocks bodyCom
        (getRangeSensorObs g putSpin scale height torsoX torsoY nBins
          sensorRange span robot ori bodyCom intersectDist) t).length =
      (if topDown then pixels.length else 0) + wrappedObs.length +
        (if observeBlocks then 3 * blocks.length else 0) + 3 * nBins +
        1 ∧
    observationSpace topDown observeBlocks pixels wrappedObs blocks
        bodyCom
        (getRangeSensorObs g putSpin scale height torsoX torsoY nBins
          sensorRange span robot ori bodyCom intersectDist) t =
      { shape := (getObs topDown observeBlocks pixels wrappedObs blocks
          bodyCom
          (getRangeSensorObs g putSpin scale height torsoX torsoY nBins
            sensorRange span robot ori bodyCom intersectDist) t).length
        lowNegInf := true
        highPosInf := true } := by
  refine ⟨fun sensorRows => rfl, ?_, rfl⟩
  have hflat : ((getRangeSensorObs g putSpin scale height torsoX torsoY
      nBins sensorRange span robot ori bodyCom
      intersectDist).flatten).length = 3 * nBins := by
    rw [flatten_length_const _ 3
      (getRangeSensorObs_rows g putSpin scale height torsoX torsoY nBins
        sensorRange span robot ori bodyCom intersectDist)]
    have hlen : (getRangeSensorObs g putSpin scale height torsoX torsoY
        nBins sensorRange span robot ori bodyCom
        intersectDist).length = nBins := by
      simp [getRangeSensorObs]
    rw [hlen]
  have hsum : (List.map (List.length ∘ fun b : ℕ × ℕ × MoveVariant =>
      [(bodyCom (b.1, b.2.1)).1, (bodyCom (b.1, b.2.1)).2.1,
        (bodyCom (b.1, b.2.1)).2.2]) blocks).sum = 3 * blocks.length := by
    induction blocks with
    | nil => rfl
    | cons b tl ih =>
      simp only [List.map_cons, List.sum_cons, ih, Function.comp_apply,
        List.length_cons, List.length_nil]
      ring
  by_cases ht : topDown <;> by_cases hb : observeBlocks <;>
    simp [getObs, ht, hb, hflat, hsum, blockObsVec_length,
      List.length_take, List.length_drop, List.length_append] <;>
    omega

/-- Witness for C6 with all optional segments active, a 4-component
wrapped vector, one pixel, no blocks and zero rays: the observation has
1 + 4 + 0 + 0 + 1 = 6 components. -/
theorem getObs_order_length_space_witness :
    (getObs true true [255] [1, 2, 3, 4] [] (fun _ => (0, 0, 0))
      (getRangeSensorObs [[Cell.wall]] false 2 1 0 0 0 2 1 (0, 0, 0) 0
        (fun _ => (0, 0, 0)) (fun _ _ _ => none)) 5).length = 6 := by
  have h := (getObs_order_length_space true true [255] [1, 2, 3, 4] []
    (fun _ => (0, 0, 0)) [[Cell.wall]] false 2 1 0 0 0 2 1 (0, 0, 0) 0
    (fun _ _ _ => none) 5 (by norm_num)).2.1
  rw [h]
  norm_num

end AntMaze
